import Mathlib

/-!
# Verification of the `bevy_dae` COLLADA-to-mesh converters

Shallow embedding of the two mesh converters of the `bevy_dae` repository:

* `collada_to_triangle_mesh` and `collada_to_wireframe_mesh` from
  `src/main.rs`, operating on the structured scene graph produced by the
  `collada` crate; and
* `dae_to_triangle_mesh` from `src/lib.rs`, operating on a `mesh_loader`
  scene.

Modelling conventions:

* Rust `f32`/`f64` values are modelled as rationals (`ℚ`); the `f64 → f32`
  casts of the source are modelled as the identity.  `f32::round` (round
  half away from zero) is modelled exactly by `roundHalfAway`, and the
  saturating `as i32` cast of the vertex-key computation by `sat32`; only
  the rounding of the `* 1000.0` product itself is idealized as exact (see
  `vertexKey`).
* `usize`/`u32` arithmetic is modelled on `ℕ` without truncation: no
  quantity in the programs below can overflow for any input of realizable
  size, and the `as u32`/`as usize` casts of the source are value-preserving
  there.
* Rust panics (out-of-range slice or array indexing, division by zero) are
  modelled as a distinguished result `CResult.panic`; fallible lookups
  return `Option`.
* The `std::collections::HashMap` used for vertex welding is modelled by an
  association list (`listMap`); the conversion is additionally parameterised
  over an arbitrary key→value map implementation (`MapImpl`) and proved to
  be independent of the choice of any `LawfulMap` implementation, which is
  the precise sense in which the map is consulted only for membership and
  stored indices, never for iteration order.
-/

namespace BevyDae

/-! ## Rounding and vertex keys (`main.rs` lines 183–187, 267–271) -/

/-- Rust `f32::round`: round to the nearest integer, half away from zero. -/
def roundHalfAway (x : ℚ) : ℤ :=
  if 0 ≤ x then ⌊x + 1 / 2⌋ else ⌈x - 1 / 2⌉

/-- Rust's saturating float→int cast `as i32`: values beyond the `i32`
range clamp to `i32::MIN` / `i32::MAX`.  (The NaN→0 case cannot arise in
the rational model.) -/
def sat32 (z : ℤ) : ℤ :=
  max (-2147483648) (min 2147483647 z)

/-- Quantised vertex key: each coordinate is scaled by 1000, rounded and
saturated (`(position[i] * 1000.0).round() as i32`). -/
abbrev VKey := ℤ × ℤ × ℤ

/-- The `vertex_key` computed in the dedup loop of `collada_to_triangle_mesh`
(and identically in `collada_to_wireframe_mesh`): the `* 1000.0` product is
idealized as exact (real `f32` multiplication also rounds the product, which
can only merge *more* nearby values; no theorem below derives key
*distinctness* from a coordinate distance, so no claim relies on this
idealization), and the `as i32` cast saturates via `sat32`. -/
def vertexKey (p : ℚ × ℚ × ℚ) : VKey :=
  (sat32 (roundHalfAway (p.1 * 1000)), sat32 (roundHalfAway (p.2.1 * 1000)),
   sat32 (roundHalfAway (p.2.2 * 1000)))

/-- Bounds-checked read of three consecutive floats `arr[i]`, `arr[i+1]`,
`arr[i+2]`; `none` models the Rust index-out-of-range panic. -/
def readVec3 (arr : List ℚ) (i : Nat) : Option (ℚ × ℚ × ℚ) :=
  match arr[i]?, arr[i + 1]?, arr[i + 2]? with
  | some a, some b, some c => some (a, b, c)
  | _, _, _ => none

/-! ## Strings: Rust `str::contains` (case-sensitive substring search) -/

/-- Rust `str::contains` on string slices: case-sensitive substring test. -/
def strContains (s pat : String) : Bool :=
  s.data.tails.any (fun t => pat.data.isPrefixOf t)

/-- Modelled from the spec: the spec's words "case-insensitive substring
match" (section 4.1), for comparison with the case-sensitive matching the
code actually performs.  Not part of the code embedding. -/
def strContainsInsensitive (s pat : String) : Bool :=
  (s.data.map Char.toLower).tails.any (fun t => (pat.data.map Char.toLower).isPrefixOf t)

/-! ## The scene-graph data model consumed from the `collada` crate -/

/-- A `<source>`: id, accessor stride, and flat float array. -/
structure Source where
  id : String
  stride : Nat
  float_array : List ℚ
  deriving DecidableEq, Repr

/-- One `<input>` of a triangles primitive: semantic and offset. -/
structure TriInput where
  semantic : String
  offset : Nat
  deriving DecidableEq, Repr

/-- A `<triangles>` primitive: inputs plus the flat index block `p`. -/
structure Triangles where
  inputs : List TriInput
  p : List Nat
  deriving DecidableEq, Repr

structure CMesh where
  sources : List Source
  triangles : List Triangles
  deriving DecidableEq, Repr

structure Geometry where
  mesh : CMesh
  deriving DecidableEq, Repr

structure InstanceGeometry where
  url : String
  deriving DecidableEq, Repr

structure SceneNode where
  instance_geometry : Option InstanceGeometry
  deriving DecidableEq, Repr

structure VisualScene where
  nodes : List SceneNode
  deriving DecidableEq, Repr

/-- The parsed document: `get_visual_scene` is the `visual_scene` field and
`get_geometry` is association lookup in `geometries`. -/
structure ColladaDocument where
  visual_scene : Option VisualScene
  geometries : List (String × Geometry)
  deriving DecidableEq, Repr

def get_geometry (doc : ColladaDocument) (url : String) : Option Geometry :=
  (doc.geometries.find? (fun g => g.1 = url)).map (fun g => g.2)

/-- The node scan of `collada_to_triangle_mesh` (`main.rs` lines 70–78):
the first node whose `instance_geometry` url resolves yields the geometry. -/
def find_geometry (doc : ColladaDocument) (nodes : List SceneNode) : Option Geometry :=
  nodes.findSome? (fun n => n.instance_geometry.bind (fun ig => get_geometry doc ig.url))

/-- `main.rs` line 89: `s.id.contains("position") || s.id.contains("Position")`. -/
def posIdMatch (s : Source) : Bool :=
  strContains s.id "position" || strContains s.id "Position"

/-- `main.rs` line 98: `s.id.contains("normal") || s.id.contains("Normal")`. -/
def normIdMatch (s : Source) : Bool :=
  strContains s.id "normal" || strContains s.id "Normal"

/-! ## Output meshes and results -/

inductive Topology where
  | triangleList
  | lineList
  deriving DecidableEq, Repr

/-- The assembled Bevy mesh: positions/normals/uv0 attributes plus indices. -/
structure OutMesh where
  topology : Topology
  positions : List (ℚ × ℚ × ℚ)
  normals : List (ℚ × ℚ × ℚ)
  uv0 : List (ℚ × ℚ)
  indices : List Nat
  deriving DecidableEq, Repr

/-- Result of a converter call: success, a typed
`ColladaError::Geometry(msg)`, or a Rust panic (unchecked indexing). -/
inductive CResult (α : Type) where
  | ok (a : α)
  | geomError (msg : String)
  | panic
  deriving DecidableEq, Repr

/-! ## Key→index maps

The Rust code uses `std::collections::HashMap<VKey, usize>` only through
`get` and `insert`.  We model an arbitrary implementation by `MapImpl`. -/

structure MapImpl (σ : Type) where
  empty : σ
  find : σ → VKey → Option Nat
  insert : σ → VKey → Nat → σ

/-- A map implementation is lawful when `find` on `empty` misses and `find`
after `insert` returns the inserted value at its key and is otherwise
unchanged (the `HashMap` get/insert contract). -/
def LawfulMap {σ : Type} (M : MapImpl σ) : Prop :=
  (∀ k, M.find M.empty k = none) ∧
    ∀ m k v k', M.find (M.insert m k v) k' = if k' = k then some v else M.find m k'

abbrev AList := List (VKey × Nat)

def alistFind : AList → VKey → Option Nat
  | [], _ => none
  | e :: m, k => if e.1 = k then some e.2 else alistFind m k

/-- The association-list map used as the concrete stand-in for `HashMap`. -/
def listMap : MapImpl AList where
  empty := []
  find := alistFind
  insert := fun m k v => (k, v) :: m

/-! ## The vertex-deduplication loop (`main.rs` lines 150–200) -/

/-- State of the dedup loop: the welding map plus the three accumulators. -/
structure LoopSt (σ : Type) where
  map : σ
  positions : List (ℚ × ℚ × ℚ)
  normals : List (ℚ × ℚ × ℚ)
  indices : List Nat
  deriving DecidableEq, Repr

/-- The normal resolution of one loop iteration (`main.rs` lines 164–180):
read from the normal source when both a `NORMAL` offset and a normal source
exist, defaulting to the up vector `(0, 1, 0)` otherwise; `none` models an
out-of-range read panic. -/
def resolveNormal (normal_source : Option Source) (normal_offset : Option Nat)
    (w : List Nat) : Option (ℚ × ℚ × ℚ) :=
  match normal_offset, normal_source with
  | some noff, some ns =>
    match w[noff]? with
    | none => none
    | some nEntry => readVec3 ns.float_array (nEntry * ns.stride)
  | _, _ => some (0, 1, 0)

/-- One iteration of the dedup loop on the current window `w` of the index
block (`main.rs` lines 153–199); `none` models a panic. -/
def stepWindow {σ : Type} (M : MapImpl σ) (positions_raw : List ℚ) (position_stride : Nat)
    (normal_source : Option Source) (position_offset : Nat) (normal_offset : Option Nat)
    (w : List Nat) (st : LoopSt σ) : Option (LoopSt σ) :=
  match w[position_offset]? with
  | none => none
  | some pEntry =>
    match readVec3 positions_raw (pEntry * position_stride) with
    | none => none
    | some position =>
      match resolveNormal normal_source normal_offset w with
      | none => none
      | some normal =>
        let key := vertexKey position
        match M.find st.map key with
        | some idx => some { st with indices := st.indices ++ [idx] }
        | none =>
          let idx := st.positions.length
          some { map := M.insert st.map key idx,
                 positions := st.positions ++ [position],
                 normals := st.normals ++ [normal],
                 indices := st.indices ++ [idx] }

/-- The dedup loop `for i in (0..p.len()).step_by(stride)` with the slice
`&p[i..i+stride]`; structurally recursive on a fuel argument (any
`fuel ≥ p.length` is adequate since `stride ≥ 1` at every call site). -/
def dedupLoop {σ : Type} (M : MapImpl σ) (positions_raw : List ℚ) (position_stride : Nat)
    (normal_source : Option Source) (position_offset : Nat) (normal_offset : Option Nat)
    (stride : Nat) : Nat → List Nat → LoopSt σ → Option (LoopSt σ)
  | _, [], st => some st
  | 0, _ :: _, _ => none
  | fuel + 1, r :: rest, st =>
    if stride ≤ (r :: rest).length then
      match stepWindow M positions_raw position_stride normal_source position_offset
          normal_offset ((r :: rest).take stride) st with
      | none => none
      | some st' =>
        dedupLoop M positions_raw position_stride normal_source position_offset
          normal_offset stride fuel ((r :: rest).drop stride) st'
    else none

/-! ## Offset and stride determination (`main.rs` lines 113–147) -/

/-- The offset-scanning loops assign on every matching input, so the last
matching input wins. -/
def lastOffset (inputs : List TriInput) (sem : String) : Option Nat :=
  inputs.foldl (fun acc i => if i.semantic = sem then some i.offset else acc) none

/-- `main.rs` lines 117–136: prefer the `VERTEX` semantic, falling back to
`POSITION` when no `VERTEX` input exists. -/
def positionOffsetOf (inputs : List TriInput) : Option Nat :=
  if (inputs.find? (fun i => i.semantic = "VERTEX")).isSome then lastOffset inputs "VERTEX"
  else lastOffset inputs "POSITION"

/-- `main.rs` lines 142–147: index-block stride = max input offset + 1,
defaulting to 1 with no inputs. -/
def strideOf (inputs : List TriInput) : Nat :=
  match (inputs.map (fun i => i.offset)).max? with
  | some m => m + 1
  | none => 1

/-- Everything the dedup loop needs, extracted from the document. -/
structure LoopCtx where
  positions_raw : List ℚ
  position_stride : Nat
  normal_source : Option Source
  position_offset : Nat
  normal_offset : Option Nat
  stride : Nat
  deriving DecidableEq, Repr

/-- `main.rs` lines 63–147: scene, geometry, source, triangles and offset
resolution, in the order of the source (position source before triangles). -/
def extractCtx (doc : ColladaDocument) : CResult (LoopCtx × List Nat) :=
  match doc.visual_scene with
  | none => .geomError "No visual scene found"
  | some scene =>
    match find_geometry doc scene.nodes with
    | none => .geomError "No geometry found"
    | some geometry =>
      match geometry.mesh.sources.find? posIdMatch with
      | none => .geomError "No position source found"
      | some position_source =>
        let normal_source := geometry.mesh.sources.find? normIdMatch
        match geometry.mesh.triangles.head? with
        | none => .geomError "No triangles found"
        | some triangles =>
          match positionOffsetOf triangles.inputs with
          | none => .geomError "No position input found"
          | some position_offset =>
            .ok (⟨position_source.float_array, position_source.stride, normal_source,
                  position_offset, lastOffset triangles.inputs "NORMAL",
                  strideOf triangles.inputs⟩,
                 triangles.p)

/-- The loop state reached by `collada_to_triangle_mesh` just before mesh
assembly, parameterised by the map implementation. -/
def conversionState_with {σ : Type} (M : MapImpl σ) (doc : ColladaDocument) :
    CResult (LoopSt σ) :=
  match extractCtx doc with
  | .geomError s => .geomError s
  | .panic => .panic
  | .ok (ctx, p) =>
    match dedupLoop M ctx.positions_raw ctx.position_stride ctx.normal_source
        ctx.position_offset ctx.normal_offset ctx.stride p.length p
        ⟨M.empty, [], [], []⟩ with
    | none => .panic
    | some st => .ok st

/-- `collada_to_triangle_mesh` (`main.rs` lines 63–218), parameterised by
the welding-map implementation; lines 202–217 assemble the mesh with the
synthesized constant UV channel. -/
def collada_to_triangle_mesh_with {σ : Type} (M : MapImpl σ) (doc : ColladaDocument) :
    CResult OutMesh :=
  match conversionState_with M doc with
  | .geomError s => .geomError s
  | .panic => .panic
  | .ok st =>
    .ok { topology := .triangleList,
          positions := st.positions,
          normals := st.normals,
          uv0 := List.replicate st.positions.length (0, 0),
          indices := st.indices }

/-- `collada_to_triangle_mesh` with the association-list model of the Rust
`HashMap`. -/
def collada_to_triangle_mesh (doc : ColladaDocument) : CResult OutMesh :=
  collada_to_triangle_mesh_with listMap doc

/-- `conversionState_with` specialised like `collada_to_triangle_mesh`. -/
def conversionState (doc : ColladaDocument) : CResult (LoopSt AList) :=
  conversionState_with listMap doc

/-! ## The window keys referenced by an index block

Used to state which quantized positions the windows of the index block
reference; mirrors the window decomposition of `dedupLoop`. -/

/-- The `VertexKey` a single window references (`none` when a read would be
out of range). -/
def keyOfWindow (positions_raw : List ℚ) (position_stride position_offset : Nat)
    (w : List Nat) : Option VKey :=
  (w[position_offset]?).bind
    (fun pEntry => (readVec3 positions_raw (pEntry * position_stride)).map vertexKey)

/-- The keys referenced by the successive windows of the index block, in
scan order, following the same window decomposition as `dedupLoop`. -/
def windowKeys (positions_raw : List ℚ) (position_stride position_offset stride : Nat) :
    Nat → List Nat → List (Option VKey)
  | _, [] => []
  | 0, _ :: _ => []
  | fuel + 1, r :: rest =>
    if stride ≤ (r :: rest).length then
      keyOfWindow positions_raw position_stride position_offset ((r :: rest).take stride) ::
        windowKeys positions_raw position_stride position_offset stride fuel
          ((r :: rest).drop stride)
    else []

/-! ## The wireframe path (`main.rs` lines 220–381, `collada_to_wireframe_mesh`) -/

/-- The unique-vertex pool loop (`main.rs` lines 259–277): scan the raw
position source in windows of `position_stride`, welding with the same
`VertexKey` scheme; `none` models an out-of-range read panic. -/
def poolLoop (positions_raw : List ℚ) (position_stride : Nat) :
    List Nat → AList × List (ℚ × ℚ × ℚ) → Option (AList × List (ℚ × ℚ × ℚ))
  | [], st => some st
  | i :: is, (vertex_indices, positions) =>
    match readVec3 positions_raw (i * position_stride) with
    | none => none
    | some position =>
      let key := vertexKey position
      if (alistFind vertex_indices key).isSome then
        poolLoop positions_raw position_stride is (vertex_indices, positions)
      else
        poolLoop positions_raw position_stride is
          ((key, positions.length) :: vertex_indices, positions ++ [position])

/-- The edge-emission loop (`main.rs` lines 299–362):
`for face in (0..p.len()).step_by(stride * 3)` with slice
`&p[face..face + stride * 3]`; each triangle's three keys are resolved and,
when all three pool lookups hit, 6 line indices are pushed; a missed lookup
silently skips the triangle. -/
def faceLoop (positions_raw : List ℚ) (position_stride : Nat) (vertex_indices : AList)
    (position_offset stride : Nat) : Nat → List Nat → List Nat → Option (List Nat)
  | _, [], acc => some acc
  | 0, _ :: _, _ => none
  | fuel + 1, r :: rest, acc =>
    if stride * 3 ≤ (r :: rest).length then
      let w := (r :: rest).take (stride * 3)
      match keyOfWindow positions_raw position_stride position_offset w,
          keyOfWindow positions_raw position_stride (position_offset + stride) w,
          keyOfWindow positions_raw position_stride (position_offset + stride * 2) w with
      | some k0, some k1, some k2 =>
        let acc' :=
          match alistFind vertex_indices k0, alistFind vertex_indices k1,
              alistFind vertex_indices k2 with
          | some v0, some v1, some v2 => acc ++ [v0, v1, v1, v2, v2, v0]
          | _, _, _ => acc
        faceLoop positions_raw position_stride vertex_indices position_offset stride fuel
          ((r :: rest).drop (stride * 3)) acc'
      | _, _, _ => none
    else none

/-- `collada_to_wireframe_mesh` (`main.rs` lines 221–381).  Scene, geometry
and position-source resolution are identical to the triangle path; the pool
is built from the raw source before the triangles primitive is looked up;
`positions_raw.len() / position_stride` with a zero stride is a Rust
division-by-zero panic.  The first input with semantic `VERTEX` or
`POSITION` gives the position offset. -/
def collada_to_wireframe_mesh (doc : ColladaDocument) : CResult OutMesh :=
  match doc.visual_scene with
  | none => .geomError "No visual scene found"
  | some scene =>
    match find_geometry doc scene.nodes with
    | none => .geomError "No geometry found"
    | some geometry =>
      match geometry.mesh.sources.find? posIdMatch with
      | none => .geomError "No position source found"
      | some position_source =>
        let position_stride := position_source.stride
        let positions_raw := position_source.float_array
        if position_stride = 0 then .panic
        else
          match poolLoop positions_raw position_stride
              (List.range (positions_raw.length / position_stride)) ([], []) with
          | none => .panic
          | some (vertex_indices, positions) =>
            match geometry.mesh.triangles.head? with
            | none => .geomError "No triangles found"
            | some triangles =>
              match (triangles.inputs.find?
                  (fun i => i.semantic = "VERTEX" ∨ i.semantic = "POSITION")).map
                  (fun i => i.offset) with
              | none => .geomError "No position input found"
              | some position_offset =>
                let stride := strideOf triangles.inputs
                match faceLoop positions_raw position_stride vertex_indices position_offset
                    stride triangles.p.length triangles.p [] with
                | none => .panic
                | some line_indices =>
                  .ok { topology := .lineList,
                        positions := positions,
                        normals := List.replicate positions.length (1, 0, 0),
                        uv0 := List.replicate positions.length (0, 0),
                        indices := line_indices }

/-- The consecutive index pairs of a line-list index buffer, normalised to
undirected edges (smaller endpoint first). -/
def lineSegs : List Nat → List (Nat × Nat)
  | a :: b :: rest => (min a b, max a b) :: lineSegs rest
  | _ => []

/-! ## The `mesh_loader`-based converter (`src/lib.rs`, `dae_to_triangle_mesh`) -/

/-- A mesh as produced by `mesh_loader`: vertices, normals, texture
coordinate sets, and triangular faces. -/
structure MLMesh where
  vertices : List (ℚ × ℚ × ℚ)
  normals : List (ℚ × ℚ × ℚ)
  texcoords : List (List (ℚ × ℚ))
  faces : List (Nat × Nat × Nat)
  deriving DecidableEq, Repr

structure MLScene where
  meshes : List MLMesh
  deriving DecidableEq, Repr

/-- A Bevy mesh as assembled by `dae_to_triangle_mesh`: normals and UVs are
present only when the source mesh provides them.  The best-effort
`generate_tangents().ok()` call only adds a tangent attribute and can never
fail the conversion, so it is omitted from the model. -/
structure BMesh where
  positions : List (ℚ × ℚ × ℚ)
  normals : Option (List (ℚ × ℚ × ℚ))
  uv0 : Option (List (ℚ × ℚ))
  indices : List Nat
  deriving DecidableEq, Repr

/-- `dae_to_triangle_mesh` (`lib.rs` lines 71–136). -/
def dae_to_triangle_mesh (scene : MLScene) (mesh_index : Nat) : Option BMesh :=
  if h : mesh_index < scene.meshes.length then
    let m := scene.meshes[mesh_index]
    if m.vertices.isEmpty then none
    else
      some { positions := m.vertices,
             normals := if m.normals.isEmpty then none else some m.normals,
             uv0 :=
               if m.texcoords.length > 0 ∧ ¬(m.texcoords.headI.isEmpty) then
                 some m.texcoords.headI
               else none,
             indices :=
               if m.faces.isEmpty then List.range m.vertices.length
               else m.faces.flatMap (fun f => [f.1, f.2.1, f.2.2]) }
  else none

/-- Invariant of the dedup loop state: the stored canonical indices are
exactly `0 .. positions.length - 1` (newest first), the attribute arrays
have equal length, and every emitted index is in range. -/
def TriInv (st : LoopSt AList) : Prop :=
  st.map.map Prod.snd = (List.range st.positions.length).reverse ∧
  st.normals.length = st.positions.length ∧
  ∀ i ∈ st.indices, i < st.positions.length

/-! ## Map parametricity

The Rust `HashMap` is consulted only through `get`/`insert`.  To express
that the conversion never depends on the map's iteration order (or any
other implementation detail), the conversion is proved equal for every
lawful map implementation. -/

/-- Relates two optional results componentwise. -/
def OptRel {α β : Type} (R : α → β → Prop) : Option α → Option β → Prop
  | some a, some b => R a b
  | none, none => True
  | _, _ => False

/-- Two loop states over different map implementations correspond when the
maps agree extensionally and the accumulators are equal. -/
def StRel {σ₁ σ₂ : Type} (M₁ : MapImpl σ₁) (M₂ : MapImpl σ₂)
    (a : LoopSt σ₁) (b : LoopSt σ₂) : Prop :=
  (∀ k, M₁.find a.map k = M₂.find b.map k) ∧
  a.positions = b.positions ∧ a.normals = b.normals ∧ a.indices = b.indices

/-- A function-backed map implementation, used to witness that the
conversion is independent of the map implementation. -/
def funMap : MapImpl (VKey → Option Nat) where
  empty := fun _ => none
  find := fun m k => m k
  insert := fun m k v => fun q => if q = k then some v else m q

/-- A single-triangle wireframe document: position source of exactly three
positions (stride 3), one `VERTEX` input at offset 0, and index block
`[a, b, c]` giving the triangle's winding. -/
def wireDoc9 (x0 y0 z0 x1 y1 z1 x2 y2 z2 : ℚ) (a b c : Nat) : ColladaDocument :=
  ⟨some ⟨[⟨some ⟨"#geo"⟩⟩]⟩,
   [("#geo", ⟨⟨[⟨"position", 3, [x0, y0, z0, x1, y1, z1, x2, y2, z2]⟩],
     [⟨[⟨"VERTEX", 0⟩], [a, b, c]⟩]⟩⟩)]⟩

/-! ## Concrete documents used by the claim theorems -/

/-- A well-formed single-triangle document: three distinct positions,
`VERTEX` input at offset 0, index block `[0, 1, 2]`. -/
def demoDoc : ColladaDocument :=
  { visual_scene := some ⟨[⟨some ⟨"#geo"⟩⟩]⟩,
    geometries := [("#geo", ⟨⟨[⟨"positions-array", 3, [0, 0, 0, 1, 0, 0, 0, 1, 0]⟩],
      [⟨[⟨"VERTEX", 0⟩], [0, 1, 2]⟩]⟩⟩)] }

/-- The document of claim C2: position source `[0,0,0, 1,0,0, 0,1,0]` with
stride 3, a single `VERTEX` input at offset 0 (hence index-block stride 1),
index block `[0,0,0, 1,0,0, 2,0,0]`, no normal input. -/
def c2Doc : ColladaDocument :=
  { visual_scene := some ⟨[⟨some ⟨"#geo"⟩⟩]⟩,
    geometries := [("#geo", ⟨⟨[⟨"position", 3, [0, 0, 0, 1, 0, 0, 0, 1, 0]⟩],
      [⟨[⟨"VERTEX", 0⟩], [0, 0, 0, 1, 0, 0, 2, 0, 0]⟩]⟩⟩)] }

/-- Truncated position source: the only window reads
`positions_raw[0..2]` out of an empty float array. -/
def c1PosDoc : ColladaDocument :=
  { visual_scene := some ⟨[⟨some ⟨"#geo"⟩⟩]⟩,
    geometries := [("#geo", ⟨⟨[⟨"position", 3, []⟩],
      [⟨[⟨"VERTEX", 0⟩], [0]⟩]⟩⟩)] }

/-- Truncated normal source: the window reads `normals_raw[0..2]` out of an
empty normal float array. -/
def c1NormDoc : ColladaDocument :=
  { visual_scene := some ⟨[⟨some ⟨"#geo"⟩⟩]⟩,
    geometries := [("#geo", ⟨⟨[⟨"position", 3, [0, 0, 0]⟩, ⟨"normal", 3, []⟩],
      [⟨[⟨"VERTEX", 0⟩, ⟨"NORMAL", 1⟩], [0, 0]⟩]⟩⟩)] }

/-- Index block whose length is not a multiple of the stride: the second
window slice `&p[2..4]` is out of range for the 3-entry block. -/
def c1SliceDoc : ColladaDocument :=
  { visual_scene := some ⟨[⟨some ⟨"#geo"⟩⟩]⟩,
    geometries := [("#geo", ⟨⟨[⟨"position", 3, [0, 0, 0]⟩, ⟨"normal", 3, [0, 1, 0]⟩],
      [⟨[⟨"VERTEX", 0⟩, ⟨"NORMAL", 1⟩], [0, 0, 0]⟩]⟩⟩)] }

/-- Two positions 0.0003 apart on the x axis (and equal on y and z), which
quantize to the distinct keys 0 and 1. -/
def c3Doc : ColladaDocument :=
  { visual_scene := some ⟨[⟨some ⟨"#geo"⟩⟩]⟩,
    geometries := [("#geo", ⟨⟨[⟨"position", 3, [3 / 10000, 0, 0, 6 / 10000, 0, 0]⟩],
      [⟨[⟨"VERTEX", 0⟩], [0, 1]⟩]⟩⟩)] }

/-- Two positions one million units apart on the x axis: both scaled x
coordinates exceed `i32::MAX`, so the saturating cast gives them the same
key. -/
def c3SatDoc : ColladaDocument :=
  { visual_scene := some ⟨[⟨some ⟨"#geo"⟩⟩]⟩,
    geometries := [("#geo", ⟨⟨[⟨"position", 3, [3000000, 0, 0, 4000000, 0, 0]⟩],
      [⟨[⟨"VERTEX", 0⟩], [0, 1]⟩]⟩⟩)] }

/-- Two index-block windows referencing coordinate-wise equal positions
`(x, y, z)`. -/
def c3MergeDoc (x y z : ℚ) : ColladaDocument :=
  { visual_scene := some ⟨[⟨some ⟨"#geo"⟩⟩]⟩,
    geometries := [("#geo", ⟨⟨[⟨"position", 3, [x, y, z, x, y, z]⟩],
      [⟨[⟨"VERTEX", 0⟩], [0, 1]⟩]⟩⟩)] }

/-- A document whose geometry has an empty triangles list and no position
source. -/
def c8Doc : ColladaDocument :=
  { visual_scene := some ⟨[⟨some ⟨"#geo"⟩⟩]⟩,
    geometries := [("#geo", ⟨⟨[⟨"plain-array", 3, [0, 0, 0]⟩], []⟩⟩)] }

/-- A document whose only source is named `"POSITION"`: it contains
`"position"` case-insensitively but in neither of the two casings the code
tests. -/
def c5Doc : ColladaDocument :=
  { visual_scene := some ⟨[⟨some ⟨"#geo"⟩⟩]⟩,
    geometries := [("#geo", ⟨⟨[⟨"POSITION", 3, [0, 0, 0]⟩],
      [⟨[⟨"VERTEX", 0⟩], [0]⟩]⟩⟩)] }

/-- A document with a matching position source and a second source named
`"NORMAL"`: it contains `"normal"` case-insensitively but in neither of the
two casings the code tests, so the normal source is not located and the
emitted normal is the default `(0, 1, 0)` instead of the source's
`(5, 6, 7)`. -/
def c5NormDoc : ColladaDocument :=
  { visual_scene := some ⟨[⟨some ⟨"#geo"⟩⟩]⟩,
    geometries := [("#geo", ⟨⟨[⟨"position", 3, [0, 0, 0]⟩, ⟨"NORMAL", 3, [5, 6, 7]⟩],
      [⟨[⟨"VERTEX", 0⟩, ⟨"NORMAL", 1⟩], [0, 0]⟩]⟩⟩)] }

/-! ## Claim C1 (`error_handling`): unchecked raw-array reads -/

/-- **C1.**  The claim (and the spec's section 7) state that an out-of-range
computed index in any of the three raw reads of `collada_to_triangle_mesh`
results in `GeometryError("malformed data")`.  The code performs the
unchecked accesses `positions_raw[pos_idx..pos_idx+2]`,
`normals_raw[norm_idx..norm_idx+2]` and `&triangles.p[i..i+stride]`
(`main.rs` lines 153, 158–160, 171–173), so each of the three reads panics
instead: the spec itself records the missing bounds checks as a known gap,
so this is a code bug, not a spec error.  This theorem evaluates the model
at the three failing inputs: the result is a panic, never
`GeometryError("malformed data")`. -/
theorem c1_unchecked_reads_panic :
    collada_to_triangle_mesh c1PosDoc = .panic ∧
    collada_to_triangle_mesh c1NormDoc = .panic ∧
    collada_to_triangle_mesh c1SliceDoc = .panic ∧
    (CResult.panic : CResult OutMesh) ≠ .geomError "malformed data" := by
  refine ⟨by with_unfolding_all rfl, by with_unfolding_all rfl, by with_unfolding_all rfl,
    by decide⟩

/-! ## Claim C2 (`functional_correctness`): the concrete stride-1 case -/

/-- **C2, counterexample.**  On the document of claim C2 the index-block
stride is 1, so the loop processes nine one-entry windows and pushes nine
canonical indices — the claimed output index buffer `[0, 1, 2]` is wrong
(positions and normals are as claimed). -/
theorem c2_counterexample :
    collada_to_triangle_mesh c2Doc =
      .ok ⟨.triangleList, [(0, 0, 0), (1, 0, 0), (0, 1, 0)],
        [(0, 1, 0), (0, 1, 0), (0, 1, 0)], [(0, 0), (0, 0), (0, 0)],
        [0, 0, 0, 1, 0, 0, 2, 0, 0]⟩ ∧
    ([0, 0, 0, 1, 0, 0, 2, 0, 0] : List Nat) ≠ [0, 1, 2] := by
  exact ⟨by with_unfolding_all rfl, by decide⟩

/-- **C2, amended.**  For the input of claim C2, the output positions are
`[[0,0,0],[1,0,0],[0,1,0]]`, every normal is `[0,1,0]`, and the index
buffer is `[0,0,0, 1,0,0, 2,0,0]` — one canonical index per stride-1 window
of the 9-entry index block. -/
theorem c2_amended_concrete_case :
    collada_to_triangle_mesh c2Doc =
      .ok ⟨.triangleList, [(0, 0, 0), (1, 0, 0), (0, 1, 0)],
        [(0, 1, 0), (0, 1, 0), (0, 1, 0)], [(0, 0), (0, 0), (0, 0)],
        [0, 0, 0, 1, 0, 0, 2, 0, 0]⟩ := by
  with_unfolding_all rfl

/-! ## Claim C3 (`numerical`): the welding tolerance -/

/-- **C3, counterexample.**  Both halves of the claimed tolerance contract
fail.  (i) Positions `(0.0003, 0, 0)` and `(0.0006, 0, 0)` differ by less
than 0.0005 on every axis, yet their scaled x coordinates 0.3 and 0.6 round
to the distinct keys 0 and 1, so the dedup loop keeps two separate
vertices.  (ii) Positions `(3000000, 0, 0)` and `(4000000, 0, 0)` differ by
10^6 ≥ 0.001, yet both scaled x coordinates exceed `i32::MAX`, the
saturating `as i32` cast maps both to the same key, and the loop merges
them into one vertex. -/
theorem c3_counterexample :
    (|(3 : ℚ) / 10000 - 6 / 10000| < 5 / 10000 ∧
      vertexKey (3 / 10000, 0, 0) ≠ vertexKey (6 / 10000, 0, 0) ∧
      collada_to_triangle_mesh c3Doc =
        .ok ⟨.triangleList, [(3 / 10000, 0, 0), (6 / 10000, 0, 0)],
          [(0, 1, 0), (0, 1, 0)], [(0, 0), (0, 0)], [0, 1]⟩) ∧
    ((1 : ℚ) / 1000 ≤ |(3000000 : ℚ) - 4000000| ∧
      vertexKey (3000000, 0, 0) = vertexKey (4000000, 0, 0) ∧
      collada_to_triangle_mesh c3SatDoc =
        .ok ⟨.triangleList, [(3000000, 0, 0)], [(0, 1, 0)], [(0, 0)], [0, 0]⟩) := by
  refine ⟨⟨by rw [abs_lt]; constructor <;> norm_num, ?_, by with_unfolding_all rfl⟩,
    ⟨?_, by with_unfolding_all rfl, by with_unfolding_all rfl⟩⟩
  · have h1 : vertexKey (3 / 10000, 0, 0) = (0, 0, 0) := by with_unfolding_all rfl
    have h2 : vertexKey (6 / 10000, 0, 0) = (1, 0, 0) := by with_unfolding_all rfl
    rw [h1, h2]
    decide
  · rw [abs_sub_comm, abs_of_nonneg (by norm_num : (0 : ℚ) ≤ 4000000 - 3000000)]
    norm_num

/-- **C3, amended.**  No distance-based guarantee holds in either
direction: positions closer than 0.0005 on every axis may straddle a
rounding boundary and stay unmerged, and positions at least 0.001 apart on
some axis may receive the same saturated key and be merged (see the
counterexample).  What always holds is that welding is governed solely by
`VertexKey` equality; in particular, windows referencing coordinate-wise
equal positions are always merged to one canonical vertex, for every
position value. -/
theorem c3_amended_equal_positions_always_merge (x y z : ℚ) :
    collada_to_triangle_mesh (c3MergeDoc x y z) =
      .ok ⟨.triangleList, [(x, y, z)], [(0, 1, 0)], [(0, 0)], [0, 0]⟩ := by
  have h1 : extractCtx (c3MergeDoc x y z) =
      .ok (⟨[x, y, z, x, y, z], 3, none, 0, none, 1⟩, [0, 1]) := by
    with_unfolding_all rfl
  have hv0 : readVec3 [x, y, z, x, y, z] 0 = some (x, y, z) := rfl
  have hv3 : readVec3 [x, y, z, x, y, z] 3 = some (x, y, z) := rfl
  have hloop : dedupLoop listMap [x, y, z, x, y, z] 3 none 0 none 1 2 [0, 1]
      ⟨listMap.empty, [], [], []⟩ =
      some ⟨[(vertexKey (x, y, z), 0)], [(x, y, z)], [(0, 1, 0)], [0, 0]⟩ := by
    simp [dedupLoop, stepWindow, resolveNormal, listMap, alistFind, hv0, hv3]
  have hcs : conversionState_with listMap (c3MergeDoc x y z) =
      .ok ⟨[(vertexKey (x, y, z), 0)], [(x, y, z)], [(0, 1, 0)], [0, 0]⟩ := by
    simp only [conversionState_with, h1, List.length_cons, List.length_nil, hloop]
  simp only [collada_to_triangle_mesh, collada_to_triangle_mesh_with, hcs]
  rfl

/-- Witness for C3 (amended): the merge instantiated at the position
`(7, 8, 9)`. -/
theorem c3_amended_witness :
    collada_to_triangle_mesh (c3MergeDoc 7 8 9) =
      .ok ⟨.triangleList, [(7, 8, 9)], [(0, 1, 0)], [(0, 0)], [0, 0]⟩ :=
  c3_amended_equal_positions_always_merge 7 8 9

/-! ## Claim C8 (`error_handling`): the empty-triangles error -/

/-- **C8, counterexample.**  `collada_to_triangle_mesh` checks the position
source (`main.rs` lines 87–90) before the triangles primitive (lines
101–103), so an input whose geometry has an empty triangles list *and* no
position source returns `GeometryError("No position source found")`, not
`GeometryError("No triangles found")` as the claim requires of every
empty-triangles input. -/
theorem c8_counterexample :
    (∀ g ∈ c8Doc.geometries, g.2.mesh.triangles = []) ∧
    collada_to_triangle_mesh c8Doc = .geomError "No position source found" ∧
    "No position source found" ≠ "No triangles found" := by
  refine ⟨by decide, by with_unfolding_all rfl, by decide⟩

/-- **C8, amended.**  For every input that resolves a visual scene and a
geometry *and whose mesh contains a position source*, an empty triangles
list makes `collada_to_triangle_mesh` return
`GeometryError("No triangles found")` and no mesh (the result is the error
alone — all-or-nothing). -/
theorem c8_amended_no_triangles_error (doc : ColladaDocument) (scene : VisualScene)
    (g : Geometry) (s : Source) (h1 : doc.visual_scene = some scene)
    (h2 : find_geometry doc scene.nodes = some g)
    (h3 : g.mesh.sources.find? posIdMatch = some s) (h4 : g.mesh.triangles = []) :
    collada_to_triangle_mesh doc = .geomError "No triangles found" := by
  simp only [collada_to_triangle_mesh, collada_to_triangle_mesh_with, conversionState_with,
    extractCtx, h1, h2, h3, h4, List.head?_nil]

/-- Witness for C8 (amended): a concrete document with a position source
and an empty triangles list. -/
theorem c8_amended_witness :
    collada_to_triangle_mesh
      ⟨some ⟨[⟨some ⟨"#g"⟩⟩]⟩, [("#g", ⟨⟨[⟨"position", 3, [0, 0, 0]⟩], []⟩⟩)]⟩ =
      .geomError "No triangles found" :=
  c8_amended_no_triangles_error
    ⟨some ⟨[⟨some ⟨"#g"⟩⟩]⟩, [("#g", ⟨⟨[⟨"position", 3, [0, 0, 0]⟩], []⟩⟩)]⟩
    ⟨[⟨some ⟨"#g"⟩⟩]⟩ ⟨⟨[⟨"position", 3, [0, 0, 0]⟩], []⟩⟩ ⟨"position", 3, [0, 0, 0]⟩
    rfl rfl rfl rfl

/-! ## Claim C5 (`functional_correctness`): locating the position source -/

/-- **C5, counterexample.**  The id `"POSITION"` contains `"position"`
case-insensitively, but the code's match (`main.rs` lines 89 and 246) is
the case-sensitive `contains("position") || contains("Position")`, so both
converters fail to recognize it and report a missing position source.  The
normal source is located the same way (`main.rs` line 98): the id
`"NORMAL"` contains `"normal"` case-insensitively but is not recognized,
so on `c5NormDoc` the conversion succeeds with the default normal
`(0, 1, 0)` instead of the source's `(5, 6, 7)`. -/
theorem c5_counterexample :
    (strContainsInsensitive "POSITION" "position" = true ∧
     posIdMatch ⟨"POSITION", 3, [0, 0, 0]⟩ = false ∧
     collada_to_triangle_mesh c5Doc = .geomError "No position source found" ∧
     collada_to_wireframe_mesh c5Doc = .geomError "No position source found") ∧
    (strContainsInsensitive "NORMAL" "normal" = true ∧
     normIdMatch ⟨"NORMAL", 3, [5, 6, 7]⟩ = false ∧
     collada_to_triangle_mesh c5NormDoc =
       .ok ⟨.triangleList, [(0, 0, 0)], [(0, 1, 0)], [(0, 0)], [0]⟩ ∧
     ((0 : ℚ), (1 : ℚ), (0 : ℚ)) ≠ ((5 : ℚ), (6 : ℚ), (7 : ℚ))) := by
  refine ⟨⟨by decide, by decide, by with_unfolding_all rfl, by with_unfolding_all rfl⟩,
    by decide, by decide, by with_unfolding_all rfl, by decide⟩

/-- With no normal source the per-window normal resolution always yields
the default up vector `(0, 1, 0)`, whatever the `NORMAL` offset. -/
theorem resolveNormal_none (noff : Option Nat) (w : List Nat) :
    resolveNormal none noff w = some (0, 1, 0) := by
  cases noff <;> rfl

/-- One dedup-loop iteration with no normal source preserves "every
accumulated normal is the default `(0, 1, 0)`". -/
theorem stepWindow_none_normal {σ : Type} (M : MapImpl σ) (pr : List ℚ) (ps poff : Nat)
    (noff : Option Nat) (w : List Nat) (st st' : LoopSt σ)
    (h : stepWindow M pr ps none poff noff w st = some st')
    (hn : ∀ n ∈ st.normals, n = ((0 : ℚ), 1, 0)) :
    ∀ n ∈ st'.normals, n = ((0 : ℚ), 1, 0) := by
  unfold stepWindow at h
  rcases hw : w[poff]? with _ | pe <;> simp only [hw] at h
  · cases h
  rcases hr : readVec3 pr (pe * ps) with _ | pos <;> simp only [hr] at h
  · cases h
  simp only [resolveNormal_none] at h
  rcases hf : M.find st.map (vertexKey pos) with _ | idx <;> simp only [hf] at h
  · rw [Option.some.injEq] at h
    subst h
    intro n hn2
    rcases List.mem_append.mp hn2 with hmem | hmem
    · exact hn n hmem
    · exact List.mem_singleton.mp hmem
  · rw [Option.some.injEq] at h
    subst h
    exact hn

/-- The dedup loop with no normal source only ever emits the default
normal `(0, 1, 0)`. -/
theorem dedupLoop_none_normals {σ : Type} (M : MapImpl σ) (pr : List ℚ) (ps poff : Nat)
    (noff : Option Nat) (stride : Nat) :
    ∀ (fuel : Nat) (rest : List Nat) (st st' : LoopSt σ),
      dedupLoop M pr ps none poff noff stride fuel rest st = some st' →
      (∀ n ∈ st.normals, n = ((0 : ℚ), 1, 0)) →
      ∀ n ∈ st'.normals, n = ((0 : ℚ), 1, 0) := by
  intro fuel
  induction fuel with
  | zero =>
    intro rest st st' h hn
    cases rest with
    | nil =>
      rw [dedupLoop, Option.some.injEq] at h
      subst h
      exact hn
    | cons r rs => cases h
  | succ n ih =>
    intro rest st st' h hn
    cases rest with
    | nil =>
      rw [dedupLoop, Option.some.injEq] at h
      subst h
      exact hn
    | cons r rs =>
      rw [dedupLoop] at h
      split at h
      · rcases hstep : stepWindow M pr ps none poff noff ((r :: rs).take stride) st
          with _ | st₁ <;> simp only [hstep] at h
        · cases h
        exact ih _ _ _ h (stepWindow_none_normal M pr ps poff noff _ st st₁ hstep hn)
      · cases h

/-- **C5, amended.**  In both converters the position source is located by
a *case-sensitive* substring match of `"position"` or `"Position"` against
the source id (`posIdMatch`); ids containing the word only in another
casing are not recognized.  For every document resolving a scene and
geometry: if some source id matches case-sensitively, neither converter
reports a missing position source, and if none does, both do.  The normal
source is located likewise by a case-sensitive match of `"normal"` or
`"Normal"` (`normIdMatch`): whenever extraction succeeds, the loop context
carries exactly `find? normIdMatch` as its normal source, and when no
source id matches, every normal of a successfully converted mesh is the
default `(0, 1, 0)`. -/
theorem c5_amended_case_sensitive_match (doc : ColladaDocument) (scene : VisualScene)
    (g : Geometry) (h1 : doc.visual_scene = some scene)
    (h2 : find_geometry doc scene.nodes = some g) :
    (∀ s : Source, posIdMatch s = (strContains s.id "position" || strContains s.id "Position")) ∧
    ((∃ s ∈ g.mesh.sources, posIdMatch s) →
      collada_to_triangle_mesh doc ≠ .geomError "No position source found" ∧
      collada_to_wireframe_mesh doc ≠ .geomError "No position source found") ∧
    ((∀ s ∈ g.mesh.sources, ¬posIdMatch s) →
      collada_to_triangle_mesh doc = .geomError "No position source found" ∧
      collada_to_wireframe_mesh doc = .geomError "No position source found") ∧
    (∀ s : Source, normIdMatch s = (strContains s.id "normal" || strContains s.id "Normal")) ∧
    (∀ ctx p, extractCtx doc = .ok (ctx, p) →
      ctx.normal_source = g.mesh.sources.find? normIdMatch) ∧
    ((∀ s ∈ g.mesh.sources, ¬normIdMatch s) →
      ∀ m, collada_to_triangle_mesh doc = .ok m →
        ∀ nrm ∈ m.normals, nrm = ((0 : ℚ), 1, 0)) := by
  have hnsrc : ∀ ctx p, extractCtx doc = .ok (ctx, p) →
      ctx.normal_source = g.mesh.sources.find? normIdMatch := by
    intro ctx p hcp
    simp only [extractCtx, h1, h2] at hcp
    rcases hfs : g.mesh.sources.find? posIdMatch with _ | s₀ <;> simp only [hfs] at hcp
    · cases hcp
    rcases ht : g.mesh.triangles.head? with _ | tris <;> simp only [ht] at hcp
    · cases hcp
    rcases hpo : positionOffsetOf tris.inputs with _ | po <;> simp only [hpo] at hcp
    · cases hcp
    rw [CResult.ok.injEq, Prod.mk.injEq] at hcp
    obtain ⟨hc, -⟩ := hcp
    rw [← hc]
  refine ⟨fun s => rfl, ?_, ?_, fun s => rfl, hnsrc, ?_⟩
  · intro hex
    have hf : g.mesh.sources.find? posIdMatch ≠ none := fun hnone => by
      obtain ⟨s, hs, hps⟩ := hex
      have := List.find?_eq_none.mp hnone s hs
      simp [hps] at this
    rcases hfs : g.mesh.sources.find? posIdMatch with _ | s₀
    · exact absurd hfs hf
    constructor
    · intro hc
      rcases hx : conversionState_with listMap doc with st | s | _ <;>
        simp only [collada_to_triangle_mesh, collada_to_triangle_mesh_with, hx] at hc
      · exact absurd hc (by simp)
      · rcases hy : extractCtx doc with pair | s' | _ <;>
          simp only [conversionState_with, hy] at hx
        · split at hx <;> simp_all
        · simp only [extractCtx, h1, h2, hfs] at hy
          split at hy <;> [skip; split at hy] <;> simp_all
        · exact absurd hx (by simp)
      · exact absurd hc (by simp)
    · intro hc
      simp only [collada_to_wireframe_mesh, h1, h2, hfs] at hc
      repeat' split at hc
      all_goals simp_all
  · intro hall
    have hfs : g.mesh.sources.find? posIdMatch = none :=
      List.find?_eq_none.mpr (fun s hs => by simpa using hall s hs)
    constructor
    · simp only [collada_to_triangle_mesh, collada_to_triangle_mesh_with,
        conversionState_with, extractCtx, h1, h2, hfs]
    · simp only [collada_to_wireframe_mesh, h1, h2, hfs]
  · intro hall m hm nrm hmem
    have hns : g.mesh.sources.find? normIdMatch = none :=
      List.find?_eq_none.mpr (fun s hs => by simpa using hall s hs)
    rcases hst : conversionState_with listMap doc with st | s | _ <;>
      simp only [collada_to_triangle_mesh, collada_to_triangle_mesh_with, hst] at hm
    · rw [CResult.ok.injEq] at hm
      subst hm
      simp only [conversionState_with] at hst
      rcases hx : extractCtx doc with ⟨ctx, p⟩ | s' | _ <;> simp only [hx] at hst
      · rcases hdl : dedupLoop listMap ctx.positions_raw ctx.position_stride ctx.normal_source
            ctx.position_offset ctx.normal_offset ctx.stride p.length p
            ⟨listMap.empty, [], [], []⟩ with _ | st₀ <;> simp only [hdl] at hst
        · cases hst
        · rw [CResult.ok.injEq] at hst
          subst hst
          have hcn : ctx.normal_source = none := (hnsrc ctx p hx).trans hns
          rw [hcn] at hdl
          exact dedupLoop_none_normals listMap ctx.positions_raw ctx.position_stride
            ctx.position_offset ctx.normal_offset ctx.stride p.length p _ _ hdl
            (fun n hn => absurd hn (List.not_mem_nil n)) nrm hmem
      · cases hst
      · cases hst
    · cases hm
    · cases hm

/-- Witness for C5 (amended): on `demoDoc`, whose source id
`"positions-array"` contains `"position"` (so neither converter reports a
missing position source) and matches neither `"normal"` nor `"Normal"` (so
the first normal of the converted mesh is the default `(0, 1, 0)`). -/
theorem c5_amended_witness :
    (collada_to_triangle_mesh demoDoc ≠ .geomError "No position source found" ∧
     collada_to_wireframe_mesh demoDoc ≠ .geomError "No position source found") ∧
    ((0 : ℚ), (1 : ℚ), (0 : ℚ)) = ((0 : ℚ), 1, 0) :=
  ⟨(c5_amended_case_sensitive_match demoDoc ⟨[⟨some ⟨"#geo"⟩⟩]⟩
      ⟨⟨[⟨"positions-array", 3, [0, 0, 0, 1, 0, 0, 0, 1, 0]⟩], [⟨[⟨"VERTEX", 0⟩], [0, 1, 2]⟩]⟩⟩
      rfl rfl).2.1
      ⟨⟨"positions-array", 3, [0, 0, 0, 1, 0, 0, 0, 1, 0]⟩, by decide, by decide⟩,
   (c5_amended_case_sensitive_match demoDoc ⟨[⟨some ⟨"#geo"⟩⟩]⟩
      ⟨⟨[⟨"positions-array", 3, [0, 0, 0, 1, 0, 0, 0, 1, 0]⟩], [⟨[⟨"VERTEX", 0⟩], [0, 1, 2]⟩]⟩⟩
      rfl rfl).2.2.2.2.2 (by decide)
      ⟨.triangleList, [(0, 0, 0), (1, 0, 0), (0, 1, 0)], [(0, 1, 0), (0, 1, 0), (0, 1, 0)],
        [(0, 0), (0, 0), (0, 0)], [0, 1, 2]⟩ (by with_unfolding_all rfl)
      ((0 : ℚ), (1 : ℚ), (0 : ℚ)) (by decide)⟩

/-! ## Claim C10 (`error_handling`): the `mesh_loader`-based converter -/

/-- **C10.**  `dae_to_triangle_mesh` returns `none` exactly when the mesh
index is out of range or the selected mesh has an empty vertex list; on
every other input it returns a mesh, and when the face list is empty the
returned index buffer is the identity sequence `0..vertex_count`
(`lib.rs` lines 71–90 and 119–124). -/
theorem c10_dae_loader_spec (s : MLScene) (i : Nat) :
    (dae_to_triangle_mesh s i = none ↔
      s.meshes.length ≤ i ∨
        ∃ h : i < s.meshes.length, s.meshes[i].vertices = []) ∧
    (∀ (h : i < s.meshes.length) (m : BMesh), dae_to_triangle_mesh s i = some m →
      s.meshes[i].faces = [] →
      m.indices = List.range s.meshes[i].vertices.length) := by
  constructor
  · rcases Nat.lt_or_ge i s.meshes.length with h | h
    · by_cases hv : s.meshes[i].vertices.isEmpty
      · simp only [dae_to_triangle_mesh, dif_pos h, if_pos hv]
        simp only [List.isEmpty_iff] at hv
        simp [h, Nat.not_le.mpr h, hv]
      · simp only [dae_to_triangle_mesh, dif_pos h, if_neg hv]
        simp only [List.isEmpty_iff] at hv
        simp [Nat.not_le.mpr h, hv]
    · simp [dae_to_triangle_mesh, dif_neg (Nat.not_lt.mpr h), h]
  · intro h m hm hf
    simp only [dae_to_triangle_mesh, dif_pos h] at hm
    by_cases hv : s.meshes[i].vertices.isEmpty
    · rw [if_pos hv] at hm
      cases hm
    · rw [if_neg hv] at hm
      have hfe : s.meshes[i].faces.isEmpty = true := by
        simp [List.isEmpty_iff, hf]
      rw [Option.some.injEq] at hm
      rw [← hm]
      simp [hfe]

/-- Witness for C10: a scene with no meshes gives `none`; a one-mesh scene
with two vertices and no faces gives the identity index buffer `[0, 1]`. -/
theorem c10_witness :
    dae_to_triangle_mesh ⟨[]⟩ 0 = none ∧
    (⟨[(0, 0, 0), (1, 0, 0)], none, none, [0, 1]⟩ : BMesh).indices =
      List.range
        ((MLScene.mk [⟨[(0, 0, 0), (1, 0, 0)], [], [], []⟩]).meshes.getD 0
          ⟨[], [], [], []⟩).vertices.length :=
  ⟨(c10_dae_loader_spec ⟨[]⟩ 0).1.mpr (Or.inl (by decide)),
   (c10_dae_loader_spec ⟨[⟨[(0, 0, 0), (1, 0, 0)], [], [], []⟩]⟩ 0).2 (by decide)
     ⟨[(0, 0, 0), (1, 0, 0)], none, none, [0, 1]⟩ rfl rfl⟩

/-! ## Invariant lemmas for the dedup loop -/

theorem alistFind_eq_some_mem (m : AList) (k : VKey) (i : Nat)
    (h : alistFind m k = some i) : (k, i) ∈ m := by
  induction m with
  | nil => cases h
  | cons e tail ih =>
    unfold alistFind at h
    split at h
    · rename_i he
      rw [Option.some.injEq] at h
      have hke : (k, i) = e := by rw [← he, ← h]
      rw [hke]
      exact List.mem_cons_self _ _
    · exact List.mem_cons_of_mem _ (ih h)

theorem alist_key_eq_of_values_nodup (m : AList) (hnd : (m.map Prod.snd).Nodup)
    (k k' : VKey) (i : Nat) (h1 : (k, i) ∈ m) (h2 : (k', i) ∈ m) : k = k' := by
  induction m with
  | nil => cases h1
  | cons e tail ih =>
    rw [List.map_cons, List.nodup_cons] at hnd
    rcases List.mem_cons.mp h1 with he1 | ht1 <;> rcases List.mem_cons.mp h2 with he2 | ht2
    · exact congrArg Prod.fst (he1.trans he2.symm)
    · subst he1
      exact absurd (List.mem_map_of_mem Prod.snd ht2) hnd.1
    · subst he2
      exact absurd (List.mem_map_of_mem Prod.snd ht1) hnd.1
    · exact ih hnd.2 ht1 ht2

theorem stepWindow_inv (pr : List ℚ) (ps : Nat) (ns : Option Source) (poff : Nat)
    (noff : Option Nat) (w : List Nat) (st st' : LoopSt AList)
    (h : stepWindow listMap pr ps ns poff noff w st = some st') (hinv : TriInv st) :
    TriInv st' ∧ st.positions.length ≤ st'.positions.length ∧
      st'.positions.length ≤ st.positions.length + 1 := by
  unfold stepWindow at h
  rcases hw : w[poff]? with _ | pe <;> simp only [hw] at h
  · cases h
  rcases hr : readVec3 pr (pe * ps) with _ | pos <;> simp only [hr] at h
  · cases h
  rcases hn : resolveNormal ns noff w with _ | nrm <;> simp only [hn] at h
  · cases h
  rcases hf : listMap.find st.map (vertexKey pos) with _ | idx <;> simp only [hf] at h
  · -- fresh key: insert branch
    rw [Option.some.injEq] at h
    subst h
    obtain ⟨hmap, hlen, hidx⟩ := hinv
    refine ⟨⟨?_, ?_, ?_⟩, ?_, ?_⟩
    · simp only [listMap, List.map_cons, List.length_append, List.length_singleton, hmap,
        List.range_succ, List.reverse_append, List.reverse_singleton,
        List.singleton_append]
    · simp [hlen]
    · intro i hi
      simp only [List.length_append, List.length_singleton]
      rcases List.mem_append.mp hi with hi | hi
      · exact Nat.lt_succ_of_lt (hidx i hi)
      · simp only [List.mem_singleton] at hi
        omega
    · simp
    · simp
  · -- key already present: reuse branch
    rw [Option.some.injEq] at h
    subst h
    obtain ⟨hmap, hlen, hidx⟩ := hinv
    have hmem : (vertexKey pos, idx) ∈ st.map := alistFind_eq_some_mem _ _ _ hf
    have hval : idx ∈ st.map.map Prod.snd := List.mem_map_of_mem Prod.snd hmem
    rw [hmap, List.mem_reverse, List.mem_range] at hval
    refine ⟨⟨hmap, hlen, ?_⟩, le_refl _, Nat.le_succ _⟩
    intro i hi
    rcases List.mem_append.mp hi with hi | hi
    · exact hidx i hi
    · simp only [List.mem_singleton] at hi
      subst hi
      exact hval

theorem dedupLoop_inv (pr : List ℚ) (ps : Nat) (ns : Option Source) (poff : Nat)
    (noff : Option Nat) (stride : Nat) (hs : 0 < stride) :
    ∀ (fuel : Nat) (rest : List Nat) (st st' : LoopSt AList),
      dedupLoop listMap pr ps ns poff noff stride fuel rest st = some st' → TriInv st →
      TriInv st' ∧ st.positions.length ≤ st'.positions.length ∧
        st'.positions.length ≤ st.positions.length + rest.length / stride := by
  intro fuel
  induction fuel with
  | zero =>
    intro rest st st' h hinv
    cases rest with
    | nil =>
      rw [dedupLoop, Option.some.injEq] at h
      subst h
      exact ⟨hinv, le_refl _, by simp⟩
    | cons r rs => cases h
  | succ n ih =>
    intro rest st st' h hinv
    cases rest with
    | nil =>
      rw [dedupLoop, Option.some.injEq] at h
      subst h
      exact ⟨hinv, le_refl _, by simp⟩
    | cons r rs =>
      rw [dedupLoop] at h
      split at h
      · rename_i hle
        rcases hstep : stepWindow listMap pr ps ns poff noff ((r :: rs).take stride) st
          with _ | st₁ <;> simp only [hstep] at h
        · cases h
        obtain ⟨hinv₁, hlo₁, hhi₁⟩ := stepWindow_inv _ _ _ _ _ _ _ _ hstep hinv
        obtain ⟨hinv', hlo', hhi'⟩ := ih _ _ _ h hinv₁
        refine ⟨hinv', le_trans hlo₁ hlo', ?_⟩
        rw [List.length_drop] at hhi'
        have hdiv : (r :: rs).length / stride = ((r :: rs).length - stride) / stride + 1 :=
          Nat.div_eq_sub_div hs hle
        generalize hX : ((r :: rs).length - stride) / stride = X at hdiv hhi'
        omega
      · cases h

/-- The index-block stride computed by `extractCtx` is always positive. -/
theorem extractCtx_stride_pos (doc : ColladaDocument) (ctx : LoopCtx) (p : List Nat)
    (h : extractCtx doc = .ok (ctx, p)) : 0 < ctx.stride := by
  unfold extractCtx at h
  repeat' split at h
  all_goals cases h
  all_goals simp only [strideOf]
  all_goals split <;> omega

/-! ## Claim C4 (`invariants`): shape invariants of successful conversions -/

/-- **C4.**  When `collada_to_triangle_mesh` succeeds, the positions,
normals and uv0 arrays share one length `V`; `V` is at most the number
`p.length / stride` of stride-sized windows of the index block; every
emitted index is `< V`; and the welding map is injective: no two distinct
`VertexKey`s are mapped to the same canonical index. -/
theorem c4_success_invariants (doc : ColladaDocument) (m : OutMesh) (st : LoopSt AList)
    (hm : collada_to_triangle_mesh doc = .ok m) (hst : conversionState doc = .ok st) :
    m.positions.length = m.normals.length ∧
    m.uv0.length = m.positions.length ∧
    (∃ ctx p, extractCtx doc = .ok (ctx, p) ∧
      m.positions.length ≤ p.length / ctx.stride) ∧
    (∀ i ∈ m.indices, i < m.positions.length) ∧
    (∀ k k' i, alistFind st.map k = some i → alistFind st.map k' = some i → k = k') := by
  rw [conversionState] at hst
  rw [collada_to_triangle_mesh, collada_to_triangle_mesh_with, hst,
    CResult.ok.injEq] at hm
  subst hm
  rw [conversionState_with] at hst
  rcases hx : extractCtx doc with ⟨ctx, p⟩ | s | _ <;> simp only [hx] at hst
  rotate_left
  · cases hst
  · cases hst
  rcases hdl : dedupLoop listMap ctx.positions_raw ctx.position_stride ctx.normal_source
      ctx.position_offset ctx.normal_offset ctx.stride p.length p
      ⟨listMap.empty, [], [], []⟩ with _ | st₀ <;> simp only [hdl] at hst
  · cases hst
  rw [CResult.ok.injEq] at hst
  subst hst
  have hinv₀ : TriInv ⟨listMap.empty, [], [], []⟩ := by
    refine ⟨by simp [listMap], rfl, by simp⟩
  obtain ⟨⟨hmap, hlen, hidx⟩, -, hhi⟩ :=
    dedupLoop_inv ctx.positions_raw ctx.position_stride ctx.normal_source
      ctx.position_offset ctx.normal_offset ctx.stride
      (extractCtx_stride_pos doc ctx p hx) p.length p _ _ hdl hinv₀
  refine ⟨hlen.symm, by simp, ⟨ctx, p, rfl, by simpa using hhi⟩, hidx, ?_⟩
  intro k k' i h1 h2
  have hnd : (st₀.map.map Prod.snd).Nodup := by
    rw [hmap]
    exact List.nodup_reverse.mpr (List.nodup_range _)
  exact alist_key_eq_of_values_nodup st₀.map hnd k k' i
    (alistFind_eq_some_mem _ _ _ h1) (alistFind_eq_some_mem _ _ _ h2)

/-- Witness for C4: the invariants instantiated on the successful conversion
of `demoDoc`. -/
theorem c4_witness :
    (⟨.triangleList, [(0, 0, 0), (1, 0, 0), (0, 1, 0)],
      [(0, 1, 0), (0, 1, 0), (0, 1, 0)], [(0, 0), (0, 0), (0, 0)],
      [0, 1, 2]⟩ : OutMesh).positions.length =
      (⟨.triangleList, [(0, 0, 0), (1, 0, 0), (0, 1, 0)],
        [(0, 1, 0), (0, 1, 0), (0, 1, 0)], [(0, 0), (0, 0), (0, 0)],
        [0, 1, 2]⟩ : OutMesh).normals.length ∧
    (⟨.triangleList, [(0, 0, 0), (1, 0, 0), (0, 1, 0)],
      [(0, 1, 0), (0, 1, 0), (0, 1, 0)], [(0, 0), (0, 0), (0, 0)],
      [0, 1, 2]⟩ : OutMesh).uv0.length =
      (⟨.triangleList, [(0, 0, 0), (1, 0, 0), (0, 1, 0)],
        [(0, 1, 0), (0, 1, 0), (0, 1, 0)], [(0, 0), (0, 0), (0, 0)],
        [0, 1, 2]⟩ : OutMesh).positions.length ∧
    (∃ ctx p, extractCtx demoDoc = .ok (ctx, p) ∧
      (⟨.triangleList, [(0, 0, 0), (1, 0, 0), (0, 1, 0)],
        [(0, 1, 0), (0, 1, 0), (0, 1, 0)], [(0, 0), (0, 0), (0, 0)],
        [0, 1, 2]⟩ : OutMesh).positions.length ≤ p.length / ctx.stride) ∧
    (∀ i ∈ (⟨.triangleList, [(0, 0, 0), (1, 0, 0), (0, 1, 0)],
      [(0, 1, 0), (0, 1, 0), (0, 1, 0)], [(0, 0), (0, 0), (0, 0)],
      [0, 1, 2]⟩ : OutMesh).indices,
        i < (⟨.triangleList, [(0, 0, 0), (1, 0, 0), (0, 1, 0)],
          [(0, 1, 0), (0, 1, 0), (0, 1, 0)], [(0, 0), (0, 0), (0, 0)],
          [0, 1, 2]⟩ : OutMesh).positions.length) ∧
    (∀ k k' i,
      alistFind (⟨[((0, 1000, 0), 2), ((1000, 0, 0), 1), ((0, 0, 0), 0)],
        [(0, 0, 0), (1, 0, 0), (0, 1, 0)], [(0, 1, 0), (0, 1, 0), (0, 1, 0)],
        [0, 1, 2]⟩ : LoopSt AList).map k = some i →
      alistFind (⟨[((0, 1000, 0), 2), ((1000, 0, 0), 1), ((0, 0, 0), 0)],
        [(0, 0, 0), (1, 0, 0), (0, 1, 0)], [(0, 1, 0), (0, 1, 0), (0, 1, 0)],
        [0, 1, 2]⟩ : LoopSt AList).map k' = some i → k = k') :=
  c4_success_invariants demoDoc
    ⟨.triangleList, [(0, 0, 0), (1, 0, 0), (0, 1, 0)],
      [(0, 1, 0), (0, 1, 0), (0, 1, 0)], [(0, 0), (0, 0), (0, 0)], [0, 1, 2]⟩
    ⟨[((0, 1000, 0), 2), ((1000, 0, 0), 1), ((0, 0, 0), 0)],
      [(0, 0, 0), (1, 0, 0), (0, 1, 0)], [(0, 1, 0), (0, 1, 0), (0, 1, 0)], [0, 1, 2]⟩
    (by with_unfolding_all rfl) (by with_unfolding_all rfl)


/-! ## Claim C6: pairwise-distinct window keys -/

theorem stepWindow_some_key (pr : List ℚ) (ps : Nat) (ns : Option Source) (poff : Nat)
    (noff : Option Nat) (w : List Nat) (st st₁ : LoopSt AList)
    (h : stepWindow listMap pr ps ns poff noff w st = some st₁) :
    ∃ key, keyOfWindow pr ps poff w = some key := by
  unfold stepWindow at h
  rcases hw : w[poff]? with _ | pe <;> simp only [hw] at h
  · cases h
  rcases hr : readVec3 pr (pe * ps) with _ | pos <;> simp only [hr] at h
  · cases h
  exact ⟨vertexKey pos, by simp [keyOfWindow, hw, hr]⟩

theorem stepWindow_fresh_shape (pr : List ℚ) (ps : Nat) (ns : Option Source) (poff : Nat)
    (noff : Option Nat) (w : List Nat) (st st₁ : LoopSt AList) (key : VKey)
    (h : stepWindow listMap pr ps ns poff noff w st = some st₁)
    (hkey : keyOfWindow pr ps poff w = some key)
    (hmiss : alistFind st.map key = none) :
    st₁.positions.length = st.positions.length + 1 ∧
    st₁.indices = st.indices ++ [st.positions.length] ∧
    st₁.map = (key, st.positions.length) :: st.map := by
  unfold stepWindow at h
  rcases hw : w[poff]? with _ | pe <;> simp only [hw] at h
  · cases h
  rcases hr : readVec3 pr (pe * ps) with _ | pos <;> simp only [hr] at h
  · cases h
  have hkc : keyOfWindow pr ps poff w = some (vertexKey pos) := by
    simp [keyOfWindow, hw, hr]
  rw [hkc, Option.some.injEq] at hkey
  subst hkey
  rcases hn : resolveNormal ns noff w with _ | nrm <;> simp only [hn] at h
  · cases h
  have hfind : listMap.find st.map (vertexKey pos) = none := hmiss
  simp only [hfind] at h
  rw [Option.some.injEq] at h
  subst h
  refine ⟨by simp, rfl, rfl⟩

theorem dedupLoop_fresh (pr : List ℚ) (ps : Nat) (ns : Option Source) (poff : Nat)
    (noff : Option Nat) (stride : Nat) (hs : 0 < stride) :
    ∀ (fuel : Nat) (rest : List Nat) (st st' : LoopSt AList),
      dedupLoop listMap pr ps ns poff noff stride fuel rest st = some st' →
      (windowKeys pr ps poff stride fuel rest).Pairwise (· ≠ ·) →
      (∀ k, some k ∈ windowKeys pr ps poff stride fuel rest → alistFind st.map k = none) →
      st'.positions.length = st.positions.length + rest.length / stride ∧
      st'.indices = st.indices ++ List.range' st.positions.length (rest.length / stride) := by
  intro fuel
  induction fuel with
  | zero =>
    intro rest st st' h hp hfresh
    cases rest with
    | nil =>
      rw [dedupLoop, Option.some.injEq] at h
      subst h
      exact ⟨by simp, by simp⟩
    | cons r rs => cases h
  | succ n ih =>
    intro rest st st' h hp hfresh
    cases rest with
    | nil =>
      rw [dedupLoop, Option.some.injEq] at h
      subst h
      exact ⟨by simp, by simp⟩
    | cons r rs =>
      rw [dedupLoop] at h
      split at h
      · rename_i hle
        rw [windowKeys, if_pos hle] at hp hfresh
        rcases hstep : stepWindow listMap pr ps ns poff noff ((r :: rs).take stride) st
          with _ | st₁ <;> simp only [hstep] at h
        · cases h
        obtain ⟨kW, hkW⟩ := stepWindow_some_key _ _ _ _ _ _ _ _ hstep
        have hmiss : alistFind st.map kW = none :=
          hfresh kW (by rw [hkW]; exact List.mem_cons_self _ _)
        obtain ⟨hlen₁, hidx₁, hmap₁⟩ :=
          stepWindow_fresh_shape _ _ _ _ _ _ _ _ _ hstep hkW hmiss
        rw [List.pairwise_cons] at hp
        obtain ⟨hphead, hptail⟩ := hp
        have hfresh₁ : ∀ k, some k ∈ windowKeys pr ps poff stride n ((r :: rs).drop stride) →
            alistFind st₁.map k = none := by
          intro k hk
          rw [hmap₁]
          unfold alistFind
          have hne : kW ≠ k := by
            have hx := hphead (some k) hk
            rw [hkW] at hx
            intro hkk
            exact hx (by rw [hkk])
          rw [if_neg hne]
          exact hfresh k (by rw [hkW]; exact List.mem_cons_of_mem _ hk)
        obtain ⟨hlen', hidx'⟩ := ih _ _ _ h hptail hfresh₁
        have hdiv : (r :: rs).length / stride = ((r :: rs).length - stride) / stride + 1 :=
          Nat.div_eq_sub_div hs hle
        constructor
        · rw [hlen', hlen₁, List.length_drop, hdiv]
          ring
        · rw [hidx', hidx₁, hlen₁, List.length_drop, hdiv, List.range'_succ,
            List.append_assoc, List.singleton_append]
      · cases h


/-- **C6.**  If the windows of the index block reference pairwise-distinct
quantized positions, the vertex count equals the window count `N` and the
output index buffer is `0, 1, ..., N-1` in scan order. -/
theorem c6_distinct_keys_identity_indices (doc : ColladaDocument) (ctx : LoopCtx)
    (p : List Nat) (m : OutMesh) (hx : extractCtx doc = .ok (ctx, p))
    (hm : collada_to_triangle_mesh doc = .ok m)
    (hkeys : (windowKeys ctx.positions_raw ctx.position_stride ctx.position_offset
      ctx.stride p.length p).Pairwise (· ≠ ·)) :
    m.positions.length = p.length / ctx.stride ∧
    m.indices = List.range (p.length / ctx.stride) := by
  rcases hst : conversionState_with listMap doc with st | s | _ <;>
    simp only [collada_to_triangle_mesh, collada_to_triangle_mesh_with, hst] at hm
  rotate_left
  · cases hm
  · cases hm
  rw [CResult.ok.injEq] at hm
  subst hm
  simp only [conversionState_with, hx] at hst
  rcases hdl : dedupLoop listMap ctx.positions_raw ctx.position_stride ctx.normal_source
      ctx.position_offset ctx.normal_offset ctx.stride p.length p
      ⟨listMap.empty, [], [], []⟩ with _ | st₀ <;> simp only [hdl] at hst
  · cases hst
  rw [CResult.ok.injEq] at hst
  subst hst
  obtain ⟨hlen, hidx⟩ := dedupLoop_fresh ctx.positions_raw ctx.position_stride
    ctx.normal_source ctx.position_offset ctx.normal_offset ctx.stride
    (extractCtx_stride_pos doc ctx p hx) p.length p _ _ hdl hkeys (fun k _ => rfl)
  constructor
  · simpa using hlen
  · simpa [List.range_eq_range'] using hidx


/-- Witness for C6: `demoDoc` has three pairwise-distinct window keys and
its conversion emits exactly the identity index buffer. -/
theorem c6_witness :
    (⟨.triangleList, [(0, 0, 0), (1, 0, 0), (0, 1, 0)],
      [(0, 1, 0), (0, 1, 0), (0, 1, 0)], [(0, 0), (0, 0), (0, 0)],
      [0, 1, 2]⟩ : OutMesh).positions.length = 3 ∧
    (⟨.triangleList, [(0, 0, 0), (1, 0, 0), (0, 1, 0)],
      [(0, 1, 0), (0, 1, 0), (0, 1, 0)], [(0, 0), (0, 0), (0, 0)],
      [0, 1, 2]⟩ : OutMesh).indices = List.range 3 :=
  c6_distinct_keys_identity_indices demoDoc
    ⟨[0, 0, 0, 1, 0, 0, 0, 1, 0], 3, none, 0, none, 1⟩ [0, 1, 2]
    ⟨.triangleList, [(0, 0, 0), (1, 0, 0), (0, 1, 0)],
      [(0, 1, 0), (0, 1, 0), (0, 1, 0)], [(0, 0), (0, 0), (0, 0)], [0, 1, 2]⟩
    (by with_unfolding_all rfl) (by with_unfolding_all rfl)
    (by with_unfolding_all decide)


/-! ## Claim C7: determinism and map-independence -/

theorem listMap_lawful : LawfulMap listMap := by
  refine ⟨fun k => rfl, fun m k v k' => ?_⟩
  show alistFind ((k, v) :: m) k' = _
  unfold alistFind
  rcases eq_or_ne k' k with h | h
  · subst h
    simp
  · rw [if_neg (Ne.symm h), if_neg h]
    rfl

theorem funMap_lawful : LawfulMap funMap :=
  ⟨fun _ => rfl, fun _ _ _ _ => rfl⟩

theorem stepWindow_congr {σ₁ σ₂ : Type} (M₁ : MapImpl σ₁) (M₂ : MapImpl σ₂)
    (h₁ : LawfulMap M₁) (h₂ : LawfulMap M₂) (pr : List ℚ) (ps : Nat) (ns : Option Source)
    (poff : Nat) (noff : Option Nat) (w : List Nat) (a : LoopSt σ₁) (b : LoopSt σ₂)
    (hab : StRel M₁ M₂ a b) :
    OptRel (StRel M₁ M₂) (stepWindow M₁ pr ps ns poff noff w a)
      (stepWindow M₂ pr ps ns poff noff w b) := by
  obtain ⟨hmap, hpos, hnrm, hind⟩ := hab
  unfold stepWindow
  rcases hw : w[poff]? with _ | pe <;> simp only [hw]
  · trivial
  rcases hr : readVec3 pr (pe * ps) with _ | pos <;> simp only [hr]
  · trivial
  rcases hn : resolveNormal ns noff w with _ | nrm <;> simp only [hn]
  · trivial
  rw [← hmap (vertexKey pos)]
  rcases hf : M₁.find a.map (vertexKey pos) with _ | idx <;> simp only [hf]
  · refine ⟨?_, by simp [hpos], by simp [hpos, hnrm], by simp [hpos, hind]⟩
    intro k
    rw [h₁.2, h₂.2, hpos, hmap k]
  · exact ⟨hmap, hpos, hnrm, by simp [hind]⟩

theorem dedupLoop_congr {σ₁ σ₂ : Type} (M₁ : MapImpl σ₁) (M₂ : MapImpl σ₂)
    (h₁ : LawfulMap M₁) (h₂ : LawfulMap M₂) (pr : List ℚ) (ps : Nat) (ns : Option Source)
    (poff : Nat) (noff : Option Nat) (stride : Nat) :
    ∀ (fuel : Nat) (rest : List Nat) (a : LoopSt σ₁) (b : LoopSt σ₂),
      StRel M₁ M₂ a b →
      OptRel (StRel M₁ M₂) (dedupLoop M₁ pr ps ns poff noff stride fuel rest a)
        (dedupLoop M₂ pr ps ns poff noff stride fuel rest b) := by
  intro fuel
  induction fuel with
  | zero =>
    intro rest a b hab
    cases rest with
    | nil => exact hab
    | cons r rs => trivial
  | succ n ih =>
    intro rest a b hab
    cases rest with
    | nil => exact hab
    | cons r rs =>
      rw [dedupLoop, dedupLoop]
      split
      · have hstep := stepWindow_congr M₁ M₂ h₁ h₂ pr ps ns poff noff
          ((r :: rs).take stride) a b hab
        rcases hs₁ : stepWindow M₁ pr ps ns poff noff ((r :: rs).take stride) a
          with _ | a₁ <;>
          rcases hs₂ : stepWindow M₂ pr ps ns poff noff ((r :: rs).take stride) b
            with _ | b₁ <;> simp only [hs₁, hs₂] at hstep ⊢
        · trivial
        · exact absurd hstep (by simp [OptRel])
        · exact absurd hstep (by simp [OptRel])
        · exact ih _ _ _ hstep
      · trivial

/-- **C7.**  `collada_to_triangle_mesh` is deterministic and its output is
independent of the welding-map implementation: for every lawful key→index
map (`HashMap`, association list, function table, ...) the conversion
returns exactly the same result, because the map is consulted only through
`get`/`insert` — emitted array ordering comes solely from the linear
first-occurrence scan of the index block, never from map iteration. -/
theorem c7_map_independent (σ : Type) (M : MapImpl σ) (hM : LawfulMap M)
    (doc : ColladaDocument) :
    collada_to_triangle_mesh_with M doc = collada_to_triangle_mesh doc := by
  rw [collada_to_triangle_mesh]
  unfold collada_to_triangle_mesh_with conversionState_with
  rcases hx : extractCtx doc with ⟨ctx, p⟩ | s | _
  · have hrel := dedupLoop_congr M listMap hM listMap_lawful ctx.positions_raw
      ctx.position_stride ctx.normal_source ctx.position_offset ctx.normal_offset
      ctx.stride p.length p ⟨M.empty, [], [], []⟩ ⟨listMap.empty, [], [], []⟩
      ⟨fun k => (hM.1 k).trans rfl, rfl, rfl, rfl⟩
    rcases hd₁ : dedupLoop M ctx.positions_raw ctx.position_stride ctx.normal_source
        ctx.position_offset ctx.normal_offset ctx.stride p.length p
        ⟨M.empty, [], [], []⟩ with _ | a' <;>
      rcases hd₂ : dedupLoop listMap ctx.positions_raw ctx.position_stride
          ctx.normal_source ctx.position_offset ctx.normal_offset ctx.stride p.length p
          ⟨listMap.empty, [], [], []⟩ with _ | b' <;>
        simp only [hd₁, hd₂] at hrel ⊢
    · exact absurd hrel (by simp [OptRel])
    · exact absurd hrel (by simp [OptRel])
    · obtain ⟨-, hp, hn, hi⟩ := hrel
      rw [hp, hn, hi]
  · rfl
  · rfl

/-- Witness for C7: running the conversion of `demoDoc` with the
function-table map gives the very same mesh as with the association-list
map. -/
theorem c7_witness :
    collada_to_triangle_mesh_with funMap demoDoc = collada_to_triangle_mesh demoDoc :=
  c7_map_independent (VKey → Option Nat) funMap funMap_lawful demoDoc


/-! ## Claim C9: wireframe single-triangle test -/

theorem c9_test (x0 y0 z0 x1 y1 z1 x2 y2 z2 : ℚ)
    (h01 : vertexKey (x0, y0, z0) ≠ vertexKey (x1, y1, z1))
    (h02 : vertexKey (x0, y0, z0) ≠ vertexKey (x2, y2, z2))
    (h12 : vertexKey (x1, y1, z1) ≠ vertexKey (x2, y2, z2)) :
    poolLoop [x0, y0, z0, x1, y1, z1, x2, y2, z2] 3 [0, 1, 2] ([], []) =
      some ([(vertexKey (x2, y2, z2), 2), (vertexKey (x1, y1, z1), 1),
             (vertexKey (x0, y0, z0), 0)],
            [(x0, y0, z0), (x1, y1, z1), (x2, y2, z2)]) := by
  have hv0 : readVec3 [x0, y0, z0, x1, y1, z1, x2, y2, z2] 0 = some (x0, y0, z0) := rfl
  have hv1 : readVec3 [x0, y0, z0, x1, y1, z1, x2, y2, z2] (1 * 3) = some (x1, y1, z1) := rfl
  have hv2 : readVec3 [x0, y0, z0, x1, y1, z1, x2, y2, z2] (2 * 3) = some (x2, y2, z2) := rfl
  simp [poolLoop, hv0, hv1, hv2, alistFind, h01, h02, h12]

theorem c9_pre (x0 y0 z0 x1 y1 z1 x2 y2 z2 : ℚ) (a b c : Nat) :
    collada_to_wireframe_mesh (wireDoc9 x0 y0 z0 x1 y1 z1 x2 y2 z2 a b c) =
      match poolLoop [x0, y0, z0, x1, y1, z1, x2, y2, z2] 3 [0, 1, 2] ([], []) with
      | none => CResult.panic
      | some (vertex_indices, positions) =>
        match faceLoop [x0, y0, z0, x1, y1, z1, x2, y2, z2] 3 vertex_indices 0 1
            3 [a, b, c] [] with
        | none => CResult.panic
        | some line_indices =>
          CResult.ok ⟨.lineList, positions, List.replicate positions.length (1, 0, 0),
            List.replicate positions.length (0, 0), line_indices⟩ := by
  with_unfolding_all rfl


/-- **C9.**  On the wireframe path, for every position source of exactly
three pairwise-distinct quantized positions and every winding order of the
single triangle over them, the output mesh has exactly 3 pooled vertices
and exactly 6 line indices encoding the 3 distinct undirected edges
v0–v1, v1–v2, v2–v0. -/
theorem c9_wireframe_single_triangle (x0 y0 z0 x1 y1 z1 x2 y2 z2 : ℚ) (a b c : Nat)
    (h01 : vertexKey (x0, y0, z0) ≠ vertexKey (x1, y1, z1))
    (h02 : vertexKey (x0, y0, z0) ≠ vertexKey (x2, y2, z2))
    (h12 : vertexKey (x1, y1, z1) ≠ vertexKey (x2, y2, z2))
    (hperm : (a, b, c) ∈ ([(0, 1, 2), (0, 2, 1), (1, 0, 2), (1, 2, 0), (2, 0, 1),
      (2, 1, 0)] : List (Nat × Nat × Nat))) :
    ∃ m, collada_to_wireframe_mesh (wireDoc9 x0 y0 z0 x1 y1 z1 x2 y2 z2 a b c) = .ok m ∧
      m.positions.length = 3 ∧ m.indices.length = 6 ∧
      (lineSegs m.indices).Perm [(0, 1), (1, 2), (0, 2)] := by
  simp only [List.mem_cons, List.not_mem_nil, or_false] at hperm
  rcases hperm with h | h | h | h | h | h
  · simp only [Prod.mk.injEq] at h
    obtain ⟨rfl, rfl, rfl⟩ := h
    rw [c9_pre]
    have hf : faceLoop [x0, y0, z0, x1, y1, z1, x2, y2, z2] 3
        [(vertexKey (x2, y2, z2), 2), (vertexKey (x1, y1, z1), 1),
         (vertexKey (x0, y0, z0), 0)] 0 1 3 [0, 1, 2] [] = some [0, 1, 1, 2, 2, 0] := by
      have hwa : keyOfWindow [x0, y0, z0, x1, y1, z1, x2, y2, z2] 3 0 [0, 1, 2] =
          some (vertexKey (x0, y0, z0)) := rfl
      have hwb : keyOfWindow [x0, y0, z0, x1, y1, z1, x2, y2, z2] 3 1 [0, 1, 2] =
          some (vertexKey (x1, y1, z1)) := rfl
      have hwc : keyOfWindow [x0, y0, z0, x1, y1, z1, x2, y2, z2] 3 2 [0, 1, 2] =
          some (vertexKey (x2, y2, z2)) := rfl
      simp [faceLoop, hwa, hwb, hwc, alistFind, h01, h02, h12,
        Ne.symm h01, Ne.symm h02, Ne.symm h12]
    simp only [c9_test x0 y0 z0 x1 y1 z1 x2 y2 z2 h01 h02 h12, hf]
    refine ⟨_, rfl, rfl, rfl, ?_⟩
    show (lineSegs [0, 1, 1, 2, 2, 0]).Perm [(0, 1), (1, 2), (0, 2)]
    decide
  · simp only [Prod.mk.injEq] at h
    obtain ⟨rfl, rfl, rfl⟩ := h
    rw [c9_pre]
    have hf : faceLoop [x0, y0, z0, x1, y1, z1, x2, y2, z2] 3
        [(vertexKey (x2, y2, z2), 2), (vertexKey (x1, y1, z1), 1),
         (vertexKey (x0, y0, z0), 0)] 0 1 3 [0, 2, 1] [] = some [0, 2, 2, 1, 1, 0] := by
      have hwa : keyOfWindow [x0, y0, z0, x1, y1, z1, x2, y2, z2] 3 0 [0, 2, 1] =
          some (vertexKey (x0, y0, z0)) := rfl
      have hwb : keyOfWindow [x0, y0, z0, x1, y1, z1, x2, y2, z2] 3 1 [0, 2, 1] =
          some (vertexKey (x2, y2, z2)) := rfl
      have hwc : keyOfWindow [x0, y0, z0, x1, y1, z1, x2, y2, z2] 3 2 [0, 2, 1] =
          some (vertexKey (x1, y1, z1)) := rfl
      simp [faceLoop, hwa, hwb, hwc, alistFind, h01, h02, h12,
        Ne.symm h01, Ne.symm h02, Ne.symm h12]
    simp only [c9_test x0 y0 z0 x1 y1 z1 x2 y2 z2 h01 h02 h12, hf]
    refine ⟨_, rfl, rfl, rfl, ?_⟩
    show (lineSegs [0, 2, 2, 1, 1, 0]).Perm [(0, 1), (1, 2), (0, 2)]
    decide
  · simp only [Prod.mk.injEq] at h
    obtain ⟨rfl, rfl, rfl⟩ := h
    rw [c9_pre]
    have hf : faceLoop [x0, y0, z0, x1, y1, z1, x2, y2, z2] 3
        [(vertexKey (x2, y2, z2), 2), (vertexKey (x1, y1, z1), 1),
         (vertexKey (x0, y0, z0), 0)] 0 1 3 [1, 0, 2] [] = some [1, 0, 0, 2, 2, 1] := by
      have hwa : keyOfWindow [x0, y0, z0, x1, y1, z1, x2, y2, z2] 3 0 [1, 0, 2] =
          some (vertexKey (x1, y1, z1)) := rfl
      have hwb : keyOfWindow [x0, y0, z0, x1, y1, z1, x2, y2, z2] 3 1 [1, 0, 2] =
          some (vertexKey (x0, y0, z0)) := rfl
      have hwc : keyOfWindow [x0, y0, z0, x1, y1, z1, x2, y2, z2] 3 2 [1, 0, 2] =
          some (vertexKey (x2, y2, z2)) := rfl
      simp [faceLoop, hwa, hwb, hwc, alistFind, h01, h02, h12,
        Ne.symm h01, Ne.symm h02, Ne.symm h12]
    simp only [c9_test x0 y0 z0 x1 y1 z1 x2 y2 z2 h01 h02 h12, hf]
    refine ⟨_, rfl, rfl, rfl, ?_⟩
    show (lineSegs [1, 0, 0, 2, 2, 1]).Perm [(0, 1), (1, 2), (0, 2)]
    decide
  · simp only [Prod.mk.injEq] at h
    obtain ⟨rfl, rfl, rfl⟩ := h
    rw [c9_pre]
    have hf : faceLoop [x0, y0, z0, x1, y1, z1, x2, y2, z2] 3
        [(vertexKey (x2, y2, z2), 2), (vertexKey (x1, y1, z1), 1),
         (vertexKey (x0, y0, z0), 0)] 0 1 3 [1, 2, 0] [] = some [1, 2, 2, 0, 0, 1] := by
      have hwa : keyOfWindow [x0, y0, z0, x1, y1, z1, x2, y2, z2] 3 0 [1, 2, 0] =
          some (vertexKey (x1, y1, z1)) := rfl
      have hwb : keyOfWindow [x0, y0, z0, x1, y1, z1, x2, y2, z2] 3 1 [1, 2, 0] =
          some (vertexKey (x2, y2, z2)) := rfl
      have hwc : keyOfWindow [x0, y0, z0, x1, y1, z1, x2, y2, z2] 3 2 [1, 2, 0] =
          some (vertexKey (x0, y0, z0)) := rfl
      simp [faceLoop, hwa, hwb, hwc, alistFind, h01, h02, h12,
        Ne.symm h01, Ne.symm h02, Ne.symm h12]
    simp only [c9_test x0 y0 z0 x1 y1 z1 x2 y2 z2 h01 h02 h12, hf]
    refine ⟨_, rfl, rfl, rfl, ?_⟩
    show (lineSegs [1, 2, 2, 0, 0, 1]).Perm [(0, 1), (1, 2), (0, 2)]
    decide
  · simp only [Prod.mk.injEq] at h
    obtain ⟨rfl, rfl, rfl⟩ := h
    rw [c9_pre]
    have hf : faceLoop [x0, y0, z0, x1, y1, z1, x2, y2, z2] 3
        [(vertexKey (x2, y2, z2), 2), (vertexKey (x1, y1, z1), 1),
         (vertexKey (x0, y0, z0), 0)] 0 1 3 [2, 0, 1] [] = some [2, 0, 0, 1, 1, 2] := by
      have hwa : keyOfWindow [x0, y0, z0, x1, y1, z1, x2, y2, z2] 3 0 [2, 0, 1] =
          some (vertexKey (x2, y2, z2)) := rfl
      have hwb : keyOfWindow [x0, y0, z0, x1, y1, z1, x2, y2, z2] 3 1 [2, 0, 1] =
          some (vertexKey (x0, y0, z0)) := rfl
      have hwc : keyOfWindow [x0, y0, z0, x1, y1, z1, x2, y2, z2] 3 2 [2, 0, 1] =
          some (vertexKey (x1, y1, z1)) := rfl
      simp [faceLoop, hwa, hwb, hwc, alistFind, h01, h02, h12,
        Ne.symm h01, Ne.symm h02, Ne.symm h12]
    simp only [c9_test x0 y0 z0 x1 y1 z1 x2 y2 z2 h01 h02 h12, hf]
    refine ⟨_, rfl, rfl, rfl, ?_⟩
    show (lineSegs [2, 0, 0, 1, 1, 2]).Perm [(0, 1), (1, 2), (0, 2)]
    decide
  · simp only [Prod.mk.injEq] at h
    obtain ⟨rfl, rfl, rfl⟩ := h
    rw [c9_pre]
    have hf : faceLoop [x0, y0, z0, x1, y1, z1, x2, y2, z2] 3
        [(vertexKey (x2, y2, z2), 2), (vertexKey (x1, y1, z1), 1),
         (vertexKey (x0, y0, z0), 0)] 0 1 3 [2, 1, 0] [] = some [2, 1, 1, 0, 0, 2] := by
      have hwa : keyOfWindow [x0, y0, z0, x1, y1, z1, x2, y2, z2] 3 0 [2, 1, 0] =
          some (vertexKey (x2, y2, z2)) := rfl
      have hwb : keyOfWindow [x0, y0, z0, x1, y1, z1, x2, y2, z2] 3 1 [2, 1, 0] =
          some (vertexKey (x1, y1, z1)) := rfl
      have hwc : keyOfWindow [x0, y0, z0, x1, y1, z1, x2, y2, z2] 3 2 [2, 1, 0] =
          some (vertexKey (x0, y0, z0)) := rfl
      simp [faceLoop, hwa, hwb, hwc, alistFind, h01, h02, h12,
        Ne.symm h01, Ne.symm h02, Ne.symm h12]
    simp only [c9_test x0 y0 z0 x1 y1 z1 x2 y2 z2 h01 h02 h12, hf]
    refine ⟨_, rfl, rfl, rfl, ?_⟩
    show (lineSegs [2, 1, 1, 0, 0, 2]).Perm [(0, 1), (1, 2), (0, 2)]
    decide


/-- Witness for C9: the triangle over `(0,0,0)`, `(1,0,0)`, `(0,1,0)` with
winding `(2, 1, 0)`. -/
theorem c9_witness :
    ∃ m, collada_to_wireframe_mesh (wireDoc9 0 0 0 1 0 0 0 1 0 2 1 0) = .ok m ∧
      m.positions.length = 3 ∧ m.indices.length = 6 ∧
      (lineSegs m.indices).Perm [(0, 1), (1, 2), (0, 2)] :=
  c9_wireframe_single_triangle 0 0 0 1 0 0 0 1 0 2 1 0
    (by
      have h1 : vertexKey ((0 : ℚ), (0 : ℚ), (0 : ℚ)) = (0, 0, 0) := by
        with_unfolding_all rfl
      have h2 : vertexKey ((1 : ℚ), (0 : ℚ), (0 : ℚ)) = (1000, 0, 0) := by
        with_unfolding_all rfl
      rw [h1, h2]
      decide)
    (by
      have h1 : vertexKey ((0 : ℚ), (0 : ℚ), (0 : ℚ)) = (0, 0, 0) := by
        with_unfolding_all rfl
      have h3 : vertexKey ((0 : ℚ), (1 : ℚ), (0 : ℚ)) = (0, 1000, 0) := by
        with_unfolding_all rfl
      rw [h1, h3]
      decide)
    (by
      have h2 : vertexKey ((1 : ℚ), (0 : ℚ), (0 : ℚ)) = (1000, 0, 0) := by
        with_unfolding_all rfl
      have h3 : vertexKey ((0 : ℚ), (1 : ℚ), (0 : ℚ)) = (0, 1000, 0) := by
        with_unfolding_all rfl
      rw [h2, h3]
      decide)
    (by decide)

end BevyDae
